import Mathlib

/-!
Verification of the query-mediation layer of a MySQL-protocol front end over a
key-value store.  Query texts are modelled as lists of character codes
(`Str := List Nat`, ASCII); the pure classifier from `src/query.rs` is embedded
directly, the store-facing operations from `src/auth.rs`, `src/rate_limit.rs`
and `src/backend.rs` are embedded with the key-value store passed explicitly as
a map from keys to values (an atomic store command is one function application),
and the external JSON codec is a parameter.
-/

/-- A string as its list of character codes (ASCII fragment of UTF-8). -/
abbrev Str := List Nat

/-- Character-code list of a Lean string literal (used for concrete inputs). -/
def str (s : String) : Str := s.data.map Char.toNat

/-- ASCII lowercasing of one character code, as done by `to_lowercase`. -/
def lowerChar (c : Nat) : Nat := if 65 ≤ c ∧ c ≤ 90 then c + 32 else c

/-- `str::to_lowercase` on the ASCII fragment. -/
def toLowerL (s : Str) : Str := s.map lowerChar

/-- `char::is_whitespace` on the ASCII fragment (space, tab, LF, CR). -/
def isWS (c : Nat) : Bool := decide (c = 32 ∨ c = 9 ∨ c = 10 ∨ c = 13)

/-- `str::trim_start`. -/
def trimStartL (s : Str) : Str := s.dropWhile isWS

/-- `str::trim_end`. -/
def trimEndL (s : Str) : Str := (s.reverse.dropWhile isWS).reverse

/-- `str::trim`. -/
def trimL (s : Str) : Str := trimEndL (trimStartL s)

/-- `str::find(pattern)`: index of the first occurrence of `pat` in the
string, if any. -/
def findSub (pat : Str) : Str → Option Nat
  | [] => if pat.isPrefixOf ([] : Str) then some 0 else none
  | c :: rest =>
    if pat.isPrefixOf (c :: rest) then some 0 else (findSub pat rest).map (· + 1)

/-- `str::contains(pattern)`. -/
def containsSub (pat s : Str) : Bool := (findSub pat s).isSome

/-! ## `src/query.rs` -/

/-- `QueryType` from `src/query.rs`: the closed set of intents. -/
inductive QueryType where
  | SelectVersion
  | ShowTables
  | DescribeTable : Str → QueryType
  | SelectByPk : Str → Str → QueryType
  | SelectScan : Str → QueryType
  | QrVerify : Str → QueryType
  | SetOrUse
  | Rejected : String → QueryType
deriving DecidableEq

/-- `parse_qr_verify` from `src/query.rs`: match `SELECT qr_verify('...')`.
The containment test is on the lowercased text but the extraction searches
`qr_verify(` in the original-case text (39 and 34 are the single- and
double-quote codes). -/
def parse_qr_verify (query_lower query_original : Str) : Option Str :=
  if ! containsSub (str "qr_verify") query_lower then none
  else
    match findSub (str "qr_verify(") query_original with
    | none => none
    | some p =>
      match query_original.drop (p + 10) with
      | 39 :: rest => (findSub [39] rest).map fun e => rest.take e
      | 34 :: rest => (findSub [34] rest).map fun e => rest.take e
      | _ => none

/-- The inner block of `check_rejected_patterns` that runs only when the query
contains `where` (complex-WHERE rejections). -/
def check_where_patterns (query_lower : Str) : Option String :=
  if containsSub (str " and ") query_lower then some "and_not_allowed"
  else if containsSub (str " or ") query_lower then some "or_not_allowed"
  else if containsSub (str " in ") query_lower || containsSub (str " in(") query_lower then
    some "in_not_allowed"
  else if containsSub (str " like ") query_lower then some "like_not_allowed"
  else if containsSub (str " > ") query_lower || containsSub (str " < ") query_lower then
    some "comparison_not_allowed"
  else if containsSub (str " >= ") query_lower || containsSub (str " <= ") query_lower then
    some "comparison_not_allowed"
  else if containsSub (str " <> ") query_lower || containsSub (str " != ") query_lower then
    some "comparison_not_allowed"
  else if containsSub (str " between ") query_lower then some "between_not_allowed"
  else none

/-- `check_rejected_patterns` from `src/query.rs`: the reject-pattern scan. -/
def check_rejected_patterns (query_lower : Str) : Option String :=
  if (str "insert").isPrefixOf query_lower then some "insert_not_allowed"
  else if (str "update").isPrefixOf query_lower then some "update_not_allowed"
  else if (str "delete").isPrefixOf query_lower then some "delete_not_allowed"
  else if (str "drop").isPrefixOf query_lower then some "drop_not_allowed"
  else if (str "truncate").isPrefixOf query_lower then some "truncate_not_allowed"
  else if (str "alter").isPrefixOf query_lower then some "alter_not_allowed"
  else if (str "create").isPrefixOf query_lower then some "create_not_allowed"
  else
    match (if containsSub (str "where") query_lower
           then check_where_patterns query_lower else none) with
    | some r => some r
    | none =>
      if containsSub (str " join ") query_lower then some "join_not_allowed"
      else if containsSub (str " order by ") query_lower then some "order_by_not_allowed"
      else if containsSub (str " group by ") query_lower then some "group_by_not_allowed"
      else if containsSub (str " limit ") query_lower then some "limit_not_allowed"
      else if containsSub (str " offset ") query_lower then some "offset_not_allowed"
      else if containsSub (str "(select") query_lower then some "subquery_not_allowed"
      else if containsSub (str " union ") query_lower then some "union_not_allowed"
      else none

/-- The quoted-or-bare value extraction of `parse_where_pk`: a single-quoted
(39) or double-quoted (34) value, or else the bare run of non-whitespace
characters (empty treated as no match). -/
def extract_quoted_or_bare (after_eq : Str) : Option Str :=
  if [39].isPrefixOf after_eq then
    (findSub [39] (after_eq.drop 1)).map fun e => (after_eq.drop 1).take e
  else if [34].isPrefixOf after_eq then
    (findSub [34] (after_eq.drop 1)).map fun e => (after_eq.drop 1).take e
  else
    let value := after_eq.takeWhile fun c => ! isWS c
    if value = [] then none else some value

/-- The `= value` tail of `parse_where_pk`: `strip_prefix('=')` (61) followed
by `trim_start` and the quoted-or-bare extraction; no `=` means no match. -/
def extract_eq_value (after_pk : Str) : Option Str :=
  if [61].isPrefixOf after_pk then extract_quoted_or_bare (trimStartL (after_pk.drop 1))
  else none

/-- `parse_where_pk` from `src/query.rs`: extract the value of a simple
`WHERE {pk_field} = value` clause.  The field is located by its first
case-insensitive occurrence (as a substring) after the first occurrence of
`where`; the value may be single-quoted (39), double-quoted (34) or the bare
run of non-whitespace after `=` (61). -/
def parse_where_pk (query : Str) (pk_field : Str) : Option Str :=
  let query_lower := toLowerL query
  let pk_lower := toLowerL pk_field
  match findSub (str "where") query_lower with
  | none => none
  | some where_pos =>
    let after_where := query.drop (where_pos + 5)
    let after_lower := toLowerL after_where
    match findSub pk_lower after_lower with
    | none => none
    | some pk_pos =>
      extract_eq_value (trimStartL (after_where.drop (pk_pos + pk_field.length)))

/-- The `for table in known_tables` loop of the generic SELECT path of
`parse_query` (first matching table wins; a table whose WHERE clause fails to
extract falls through to the next table). -/
def selectLoop (query_lower query_trimmed : Str) : List Str → Option QueryType
  | [] => none
  | table :: rest =>
    if containsSub table query_lower then
      match parse_where_pk query_trimmed (str "id") with
      | some pk_value => some (.SelectByPk table pk_value)
      | none =>
        if ! containsSub (str "where") query_lower then some (.SelectScan table)
        else selectLoop query_lower query_trimmed rest
    else selectLoop query_lower query_trimmed rest

/-- Body of `parse_query` after the initial `trim` (the source computes
`query_trimmed` once and derives `query_lower` from it). -/
def parseTrimmed (query_trimmed : Str) (known_tables : List Str) : QueryType :=
  let query_lower := toLowerL query_trimmed
  if (str "set ").isPrefixOf query_lower || (str "use ").isPrefixOf query_lower then
    .SetOrUse
  else if containsSub (str "@@version") query_lower then .SelectVersion
  else if query_lower = str "show tables" then .ShowTables
  else
    match known_tables.find? (fun t =>
        query_lower == str "describe " ++ t || query_lower == str "desc " ++ t) with
    | some t => .DescribeTable t
    | none =>
      match parse_qr_verify query_lower query_trimmed with
      | some token => .QrVerify token
      | none =>
        match check_rejected_patterns query_lower with
        | some reason => .Rejected reason
        | none =>
          if (str "select").isPrefixOf query_lower then
            match selectLoop query_lower query_trimmed known_tables with
            | some q => q
            | none => .Rejected "unknown_query"
          else .Rejected "unknown_query"

/-- `parse_query` from `src/query.rs`. -/
def parse_query (query : Str) (known_tables : List Str) : QueryType :=
  parseTrimmed (trimL query) known_tables

/-! ## `src/auth.rs`

The Redis connection is modelled as a map from keys to values; `GETDEL` is the
atomic step `getdel` below (one function application reads the value and
removes the key).  The external JSON codec (`serde_json`) and the wall clock
(`Utc::now`) are parameters. -/

/-- `AuthToken` from `src/auth.rs` (the `data` escape hatch is carried as its
serialized text). -/
structure AuthToken where
  user_id : Str
  facility : Str
  data : Option Str
deriving DecidableEq

/-- `QrVerifyResult` from `src/auth.rs`. -/
structure QrVerifyResult where
  verified : Bool
  user_id : Option Str
  facility : Option Str
  verified_at : Option Str
  data : Option Str
deriving DecidableEq

/-- `QrVerifyResult::not_found`. -/
def QrVerifyResult.not_found : QrVerifyResult :=
  { verified := false, user_id := none, facility := none, verified_at := none, data := none }

/-- `QrVerifyResult::from_token`, with the verification instant `now` passed in
place of `Utc::now()`. -/
def QrVerifyResult.from_token (token : AuthToken) (now : Str) : QrVerifyResult :=
  { verified := true
    user_id := some token.user_id
    facility := some token.facility
    verified_at := some now
    data := token.data }

/-- The Redis `GETDEL` command on the modelled store: atomically return the
value at `key` and remove the key. -/
def getdel (store : Str → Option Str) (key : Str) : Option Str × (Str → Option Str) :=
  (store key, fun k => if k = key then none else store k)

/-- `verify_token` from `src/auth.rs`.  `parseAuth` stands for
`serde_json::from_str::<AuthToken>`, `now` for the verification instant, and
`err = true` for the `Err(_)` outcome of the `GETDEL` round trip (in which case
the store state is returned unchanged; only the result matters there). -/
def verify_token (parseAuth : Str → Option AuthToken) (now : Str)
    (store : Str → Option Str) (err : Bool) (token : Str) :
    QrVerifyResult × (Str → Option Str) :=
  let key := str "auth:" ++ token
  if err then (QrVerifyResult.not_found, store)
  else
    match getdel store key with
    | (some json, store2) =>
      match parseAuth json with
      | some auth_token => (QrVerifyResult.from_token auth_token now, store2)
      | none => (QrVerifyResult.not_found, store2)
    | (none, store2) => (QrVerifyResult.not_found, store2)

/-! ## `src/rate_limit.rs` -/

/-- The per-identity rate-limit entry in the store: the counter value (absent
before the first request or after expiry) and its remaining expiry. -/
structure RLState where
  count : Option Nat
  ttl : Option Nat
deriving DecidableEq

/-- The Lua script of `check_rate_limit`: atomically `INCR` the counter and,
exactly when the new count is 1, `EXPIRE` it to the window; returns the new
count. -/
def incr_with_expire (s : RLState) (window_secs : Nat) : Nat × RLState :=
  let current := s.count.getD 0 + 1
  (current,
   { count := some current, ttl := if current = 1 then some window_secs else s.ttl })

/-- `check_rate_limit` from `src/rate_limit.rs`.  `err = true` models a Redis
error on the script invocation (the source then allows the request). -/
def check_rate_limit (limit : Nat) (window_secs : Nat) (err : Bool) (s : RLState) :
    Bool × RLState :=
  if limit = 0 then (true, s)
  else if err then (true, s)
  else
    let (count, s2) := incr_with_expire s window_secs
    (decide (count ≤ limit), s2)

/-! ## `src/backend.rs` -/

/-- `UserRecord` from `src/backend.rs` (the JSON value stored per row). -/
structure UserRecord where
  name : Str
  email : Str
  age : Option Int
  created_at : Str
deriving DecidableEq

/-- Rendering of the `age` column:
`record.age.map(|a| a.to_string()).unwrap_or_default()`. -/
def ageCell (age : Option Int) : Str :=
  match age with
  | some a => str (toString a)
  | none => []

/-- The `SelectByPk` arm of `Backend::on_query`: build the key
`{table}.{pk_value}`, `GET` it (`Backend::get_record`; a store error yields
`None` there), and emit one row with the primary-key column set to the
requested value exactly when the payload parses; otherwise no rows.
`parseUser` stands for `serde_json::from_str::<UserRecord>`. -/
def selectByPkRows (parseUser : Str → Option UserRecord)
    (store : Str → Option Str) (table pk_value : Str) : List (List Str) :=
  let key := table ++ str "." ++ pk_value
  match store key with
  | none => []
  | some json =>
    match parseUser json with
    | none => []
    | some record =>
      [[pk_value, record.name, record.email, ageCell record.age, record.created_at]]

/-- The `loop` of `Backend::get_all_keys`: issue `SCAN cursor MATCH pattern
COUNT 100` (modelled by `scan`, with `none` for a Redis error, which makes the
source return an empty list), extend the accumulated keys, truncate and stop
once `limit > 0` and the accumulator reached `limit`, and stop when the
returned cursor is 0.  `fuel` bounds the number of round trips (the store
guarantees the cursor eventually returns to 0). -/
def get_all_keys_loop (scan : Nat → Option (Nat × List Str)) (limit : Nat) :
    Nat → Nat → List Str → List Str
  | 0, _, keys => keys
  | fuel + 1, cursor, keys =>
    match scan cursor with
    | none => []
    | some (new_cursor, batch) =>
      let keys2 := keys ++ batch
      if 0 < limit ∧ limit ≤ keys2.length then keys2.take limit
      else if new_cursor = 0 then keys2
      else get_all_keys_loop scan limit fuel new_cursor keys2

/-- `Backend::get_all_keys`: run the SCAN loop from cursor 0 with no
accumulated keys. -/
def get_all_keys (scan : Nat → Option (Nat × List Str)) (limit : Nat) (fuel : Nat) :
    List Str :=
  get_all_keys_loop scan limit fuel 0 []

/-! ## Trigger enumeration for the reject-pattern scan

One constructor per distinct disallowed construct checked by
`check_rejected_patterns` (the three comparison-operator lines of the source
share the single construct `cmpKw`, as they share one reason). -/

/-- The distinct disallowed constructs of the reject-pattern scan. -/
inductive Trigger where
  | insertKw | updateKw | deleteKw | dropKw | truncateKw | alterKw | createKw
  | andKw | orKw | inKw | likeKw | cmpKw | betweenKw
  | joinKw | orderByKw | groupByKw | limitKw | offsetKw | subqueryKw | unionKw
deriving DecidableEq, Fintype

/-- The reason string carried by each disallowed construct. -/
def reasonOf : Trigger → String
  | .insertKw => "insert_not_allowed"
  | .updateKw => "update_not_allowed"
  | .deleteKw => "delete_not_allowed"
  | .dropKw => "drop_not_allowed"
  | .truncateKw => "truncate_not_allowed"
  | .alterKw => "alter_not_allowed"
  | .createKw => "create_not_allowed"
  | .andKw => "and_not_allowed"
  | .orKw => "or_not_allowed"
  | .inKw => "in_not_allowed"
  | .likeKw => "like_not_allowed"
  | .cmpKw => "comparison_not_allowed"
  | .betweenKw => "between_not_allowed"
  | .joinKw => "join_not_allowed"
  | .orderByKw => "order_by_not_allowed"
  | .groupByKw => "group_by_not_allowed"
  | .limitKw => "limit_not_allowed"
  | .offsetKw => "offset_not_allowed"
  | .subqueryKw => "subquery_not_allowed"
  | .unionKw => "union_not_allowed"

/-- Which complex-WHERE construct fires first (mirrors
`check_where_patterns`). -/
def firedWhere (query_lower : Str) : Option Trigger :=
  if containsSub (str " and ") query_lower then some .andKw
  else if containsSub (str " or ") query_lower then some .orKw
  else if containsSub (str " in ") query_lower || containsSub (str " in(") query_lower then
    some .inKw
  else if containsSub (str " like ") query_lower then some .likeKw
  else if containsSub (str " > ") query_lower || containsSub (str " < ") query_lower then
    some .cmpKw
  else if containsSub (str " >= ") query_lower || containsSub (str " <= ") query_lower then
    some .cmpKw
  else if containsSub (str " <> ") query_lower || containsSub (str " != ") query_lower then
    some .cmpKw
  else if containsSub (str " between ") query_lower then some .betweenKw
  else none

/-- Which disallowed construct fires first in the reject-pattern scan
(mirrors `check_rejected_patterns`). -/
def firedTrigger (query_lower : Str) : Option Trigger :=
  if (str "insert").isPrefixOf query_lower then some .insertKw
  else if (str "update").isPrefixOf query_lower then some .updateKw
  else if (str "delete").isPrefixOf query_lower then some .deleteKw
  else if (str "drop").isPrefixOf query_lower then some .dropKw
  else if (str "truncate").isPrefixOf query_lower then some .truncateKw
  else if (str "alter").isPrefixOf query_lower then some .alterKw
  else if (str "create").isPrefixOf query_lower then some .createKw
  else
    match (if containsSub (str "where") query_lower
           then firedWhere query_lower else none) with
    | some t => some t
    | none =>
      if containsSub (str " join ") query_lower then some .joinKw
      else if containsSub (str " order by ") query_lower then some .orderByKw
      else if containsSub (str " group by ") query_lower then some .groupByKw
      else if containsSub (str " limit ") query_lower then some .limitKw
      else if containsSub (str " offset ") query_lower then some .offsetKw
      else if containsSub (str "(select") query_lower then some .subqueryKw
      else if containsSub (str " union ") query_lower then some .unionKw
      else none

/-! ## Intent matching up to the verbatim extracted argument -/

/-- Two intents are the same up to the verbatim extracted argument: equal,
except that the extracted primary-key value or token may differ in letter
case. -/
def intentMatch : QueryType → QueryType → Bool
  | .SelectByPk t v, .SelectByPk t2 v2 => t == t2 && toLowerL v == toLowerL v2
  | .QrVerify a, .QrVerify b => toLowerL a == toLowerL b
  | x, y => x == y

/-- `intentMatch` lifted to the optional result of the SELECT-path loop. -/
def optIntentMatch : Option QueryType → Option QueryType → Bool
  | none, none => true
  | some x, some y => intentMatch x y
  | _, _ => false

/-- Optional extracted values that agree up to letter case. -/
def optStrCV : Option Str → Option Str → Bool
  | none, none => true
  | some a, some b => toLowerL a == toLowerL b
  | _, _ => false

/-- The WHERE primary-key extraction as the specification of the classifier
describes it: the searched field is the literal `id`; the match is the first
case-insensitive occurrence of `id` (as a substring, also inside a longer
identifier) after the first occurrence of `where`; the value is then taken
after `=` (single-quoted, double-quoted, or the bare run of non-whitespace). -/
def where_pk_claimed (query : Str) : Option Str :=
  match findSub (str "where") (toLowerL query) with
  | none => none
  | some where_pos =>
    let tail := query.drop (where_pos + 5)
    match findSub (str "id") (toLowerL tail) with
    | none => none
    | some id_pos => extract_eq_value (trimStartL (tail.drop (id_pos + 2)))

/-! ## Supporting lemmas -/

set_option maxHeartbeats 1000000 in
lemma check_where_eq_fired (ql : Str) :
    check_where_patterns ql = (firedWhere ql).map reasonOf := by
  unfold check_where_patterns firedWhere
  split_ifs <;> rfl

set_option maxHeartbeats 2000000 in
lemma check_rejected_eq_fired (ql : Str) :
    check_rejected_patterns ql = (firedTrigger ql).map reasonOf := by
  unfold check_rejected_patterns firedTrigger
  have hscrut : (if containsSub (str "where") ql then check_where_patterns ql else none)
      = Option.map reasonOf
          (if containsSub (str "where") ql then firedWhere ql else none) := by
    rw [check_where_eq_fired]
    by_cases h : containsSub (str "where") ql = true <;> simp [h]
  rw [hscrut]
  cases hW : (if containsSub (str "where") ql then firedWhere ql else none) <;>
    simp only [Option.map_some', Option.map_none',
      apply_ite (Option.map reasonOf)] <;> rfl

lemma findSub_eq_none_of_not_contains {pat s : Str} (h : containsSub pat s = false) :
    findSub pat s = none := by
  unfold containsSub at h
  cases hf : findSub pat s with
  | none => rfl
  | some v => rw [hf] at h; simp at h

lemma parse_where_pk_eq_none_of_no_where {qt ql : Str} (hq : toLowerL qt = ql)
    (hw : containsSub (str "where") ql = false) (pk : Str) :
    parse_where_pk qt pk = none := by
  simp only [parse_where_pk, hq, findSub_eq_none_of_not_contains hw]

lemma selectLoop_scan_of_find {ql qt : Str} (hq : toLowerL qt = ql)
    (hw : containsSub (str "where") ql = false) :
    ∀ (T : List Str) (t : Str), T.find? (fun t2 => containsSub t2 ql) = some t →
      selectLoop ql qt T = some (.SelectScan t) := by
  intro T
  induction T with
  | nil => intro t ht; simp [List.find?] at ht
  | cons t0 rest ih =>
    intro t ht
    cases hc : containsSub t0 ql with
    | true =>
      simp only [List.find?, hc, Option.some.injEq] at ht
      subst ht
      simp only [selectLoop, hc, if_true, parse_where_pk_eq_none_of_no_where hq hw, hw]
      rfl
    | false =>
      simp only [List.find?, hc] at ht
      simp only [selectLoop, hc, Bool.false_eq_true, if_false]
      exact ih t ht

/-! ## Sanity examples mirroring the unit tests of the source -/

example : parse_query (str "SELECT @@version") [str "users"] = .SelectVersion := by decide
example : parse_query (str "SHOW TABLES") [str "users"] = .ShowTables := by decide
example : parse_query (str "DESC users") [str "users"] = .DescribeTable (str "users") := by
  decide
example : parse_query (str "SELECT * FROM users WHERE id = 'u001'") [str "users"]
    = .SelectByPk (str "users") (str "u001") := by decide
example : parse_query (str "SELECT * FROM users") [str "users"]
    = .SelectScan (str "users") := by decide
example : parse_query (str "SELECT qr_verify('abc123')") [str "users"]
    = .QrVerify (str "abc123") := by decide
example : parse_query (str "SELECT * FROM users WHERE id = 'u001' AND name = 'Alice'")
    [str "users"] = .Rejected "and_not_allowed" := by decide
example : parse_query (str "UPDATE users SET name = 'X' WHERE id = 'u001'")
    [str "users"] = .Rejected "update_not_allowed" := by decide

example :
    (verify_token (fun _ => some ⟨str "u001", str "fac-tokyo", none⟩) (str "t")
      (fun k => if k = str "auth:abc" then some (str "p") else none) false
      (str "abc")).1.verified = true := by decide
example : (check_rate_limit 2 60 false ⟨some 2, some 60⟩).1 = false := by decide
example :
    get_all_keys (fun _ => some (0, [str "users.u001", str "users.u002"])) 1 5
      = [str "users.u001"] := by decide

/-! ## Claim theorems -/

/-- C1, counterexample: the reject-pattern scan does not run before every
accepting rule.  The text `select @@version union select 1` contains the
disallowed construct ` union ` (the reject scan fires on it), yet
classification returns the accepting intent `SelectVersion`, because the
`@@version` rule runs first. -/
theorem c1_counterexample :
    parse_query (str "select @@version union select 1") [str "users"] = .SelectVersion
    ∧ check_rejected_patterns (toLowerL (trimL (str "select @@version union select 1")))
        = some "union_not_allowed" := by
  exact ⟨by decide, by decide⟩

/-- C1, amended: for every query text that matches none of the rules that run
before the reject-pattern scan (SET/USE, `@@version`, `show tables`,
DESC/DESCRIBE of a known table, `qr_verify`), if the reject-pattern scan fires
then classification returns exactly that rejection, never an accepting
intent. -/
theorem c1_theorem (q : Str) (T : List Str) (r : String)
    (h1 : ((str "set ").isPrefixOf (toLowerL (trimL q))
            || (str "use ").isPrefixOf (toLowerL (trimL q))) = false)
    (h2 : containsSub (str "@@version") (toLowerL (trimL q)) = false)
    (h3 : ¬ toLowerL (trimL q) = str "show tables")
    (h4 : T.find? (fun t => toLowerL (trimL q) == str "describe " ++ t
            || toLowerL (trimL q) == str "desc " ++ t) = none)
    (h5 : parse_qr_verify (toLowerL (trimL q)) (trimL q) = none)
    (h6 : check_rejected_patterns (toLowerL (trimL q)) = some r) :
    parse_query q T = .Rejected r := by
  unfold parse_query parseTrimmed
  simp only [h1, h2, h4, h5, h6, if_neg h3, Bool.false_eq_true, if_false]

/-- C1, witness for the amended theorem at a concrete rejected query. -/
theorem c1_witness :
    parse_query (str "select * from users where id = 'a' and name = 'b'") [str "users"]
      = .Rejected "and_not_allowed" :=
  c1_theorem _ _ _ (by decide) (by decide) (by decide) (by decide) (by decide) (by decide)

/-- C2: the token verifier is an atomic get-and-remove of `auth:{token}`.
A token absent from the store (never issued, consumed, or expired) verifies
to `false`; for a present, parsable token, the first of two verification
attempts (in either serialization of the two atomic `GETDEL` steps — the two
calls are identical) returns `verified = true` and the second returns
`verified = false`. -/
theorem c2_theorem (parseAuth : Str → Option AuthToken) (now now2 : Str)
    (store : Str → Option Str) (token : Str) :
    (store (str "auth:" ++ token) = none →
      (verify_token parseAuth now store false token).1.verified = false)
    ∧ (∀ json tok, store (str "auth:" ++ token) = some json → parseAuth json = some tok →
        (verify_token parseAuth now store false token).1.verified = true
        ∧ (verify_token parseAuth now2
            (verify_token parseAuth now store false token).2 false token).1.verified
            = false) := by
  constructor
  · intro h
    simp [verify_token, getdel, h, QrVerifyResult.not_found]
  · intro json tok hj hp
    simp [verify_token, getdel, hj, hp, QrVerifyResult.from_token, QrVerifyResult.not_found]

/-- C2, witness: a stored token verifies once and only once. -/
theorem c2_witness :
    (verify_token
        (fun s => if s = str "payload" then some ⟨str "u001", str "fac", none⟩ else none)
        (str "2026-01-01 00:00:00")
        (fun k => if k = str "auth:tok1" then some (str "payload") else none) false
        (str "tok1")).1.verified = true
    ∧ (verify_token
        (fun s => if s = str "payload" then some ⟨str "u001", str "fac", none⟩ else none)
        (str "2026-01-01 00:00:01")
        (verify_token
          (fun s => if s = str "payload" then some ⟨str "u001", str "fac", none⟩ else none)
          (str "2026-01-01 00:00:00")
          (fun k => if k = str "auth:tok1" then some (str "payload") else none) false
          (str "tok1")).2 false (str "tok1")).1.verified = false :=
  (c2_theorem _ _ _ _ _).2 (str "payload") ⟨str "u001", str "fac", none⟩
    (by decide) (by decide)

/-- C3: the reject-pattern scan is the first-fired disallowed construct mapped
through `reasonOf`, and `reasonOf` is injective — two queries rejected for two
different disallowed constructs always carry distinct reason strings (and the
catch-all `unknown_query` is not produced by the scan at all). -/
theorem c3_theorem :
    (∀ ql : Str, check_rejected_patterns ql = (firedTrigger ql).map reasonOf)
    ∧ ∀ t1 t2 : Trigger, reasonOf t1 = reasonOf t2 → t1 = t2 :=
  ⟨check_rejected_eq_fired, by decide⟩

/-- C3, witness: the characterization at a concrete query, and injectivity
applied at a concrete pair of triggers. -/
theorem c3_witness :
    check_rejected_patterns (str "select * from t where a and b")
        = (firedTrigger (str "select * from t where a and b")).map reasonOf
    ∧ Trigger.andKw = Trigger.andKw :=
  ⟨c3_theorem.1 _, c3_theorem.2 .andKw .andKw (by decide)⟩

/-- C4: evaluation of the SCAN key enumeration at `scan_limit = 0`.  With one
matching key in the store, `get_all_keys` with limit 0 returns that key (an
unbounded enumeration) instead of the empty enumeration that the documented
`0 = scans disabled` semantics requires. -/
theorem c4_theorem :
    get_all_keys (fun _ => some (0, [str "users.u001"])) 0 1 = [str "users.u001"] := by
  decide

/-- C5: the rate limiter allows everything when `limit = 0`; fails open on a
store error; otherwise atomically increments the per-identity counter, sets
the expiry to the window exactly on the transition to count 1, and allows
exactly when the new count is at most the limit — so the request after the
`limit`-th one inside the window is denied. -/
theorem c5_theorem (limit window : Nat) (err : Bool) (s : RLState) :
    (limit = 0 → check_rate_limit limit window err s = (true, s))
    ∧ (err = true → (check_rate_limit limit window err s).1 = true)
    ∧ (limit ≠ 0 → err = false →
        (check_rate_limit limit window err s).2.count = some (s.count.getD 0 + 1)
        ∧ ((check_rate_limit limit window err s).1 = true ↔ s.count.getD 0 + 1 ≤ limit)
        ∧ (check_rate_limit limit window err s).2.ttl
            = (if s.count.getD 0 + 1 = 1 then some window else s.ttl)
        ∧ (s.count = some limit → (check_rate_limit limit window err s).1 = false)) := by
  refine ⟨fun h => by simp [check_rate_limit, h], fun h => ?_, fun h1 h2 => ?_⟩
  · by_cases hl : limit = 0 <;> simp [check_rate_limit, hl, h]
  · subst h2
    refine ⟨by simp [check_rate_limit, h1, incr_with_expire],
            by simp [check_rate_limit, h1, incr_with_expire],
            by simp [check_rate_limit, h1, incr_with_expire], fun hc => ?_⟩
    simp only [check_rate_limit, incr_with_expire, if_neg h1, Bool.false_eq_true, if_false,
      hc]
    simp

/-- C5, witness: with `limit = 2` and the counter already at 2, the next
request inside the window is denied. -/
theorem c5_witness : (check_rate_limit 2 60 false ⟨some 2, some 60⟩).1 = false :=
  ((c5_theorem 2 60 false ⟨some 2, some 60⟩).2.2 (by decide) rfl).2.2.2 (by decide)

/-- C7: the point-lookup arm consults exactly the key `{table}.{pk_value}`
(its rows depend on the store only at that key); a present, parsable payload
yields exactly one row whose primary-key column is the requested value; an
absent or unparsable payload yields zero rows. -/
theorem c7_theorem (parseUser : Str → Option UserRecord) (store store2 : Str → Option Str)
    (table pk_value : Str) :
    (store (table ++ str "." ++ pk_value) = store2 (table ++ str "." ++ pk_value) →
      selectByPkRows parseUser store table pk_value
        = selectByPkRows parseUser store2 table pk_value)
    ∧ (store (table ++ str "." ++ pk_value) = none →
        selectByPkRows parseUser store table pk_value = [])
    ∧ (∀ json, store (table ++ str "." ++ pk_value) = some json → parseUser json = none →
        selectByPkRows parseUser store table pk_value = [])
    ∧ (∀ json record, store (table ++ str "." ++ pk_value) = some json →
        parseUser json = some record →
        selectByPkRows parseUser store table pk_value
          = [[pk_value, record.name, record.email, ageCell record.age,
              record.created_at]]) := by
  refine ⟨fun h => by simp only [selectByPkRows, h],
          fun h => by simp only [selectByPkRows, h],
          fun json h1 h2 => by simp only [selectByPkRows, h1, h2],
          fun json record h1 h2 => by simp only [selectByPkRows, h1, h2]⟩

/-- C7, witness: a concrete present record yields exactly its one row, with
the primary-key column taken from the query. -/
theorem c7_witness :
    selectByPkRows
      (fun s => if s = str "payload"
        then some ⟨str "Alice", str "alice@example.com", some 30, str "2024-01-01"⟩
        else none)
      (fun k => if k = str "users.u001" then some (str "payload") else none)
      (str "users") (str "u001")
      = [[str "u001", str "Alice", str "alice@example.com", ageCell (some 30),
          str "2024-01-01"]] :=
  (c7_theorem
      (fun s => if s = str "payload"
        then some ⟨str "Alice", str "alice@example.com", some 30, str "2024-01-01"⟩
        else none)
      (fun k => if k = str "users.u001" then some (str "payload") else none)
      (fun k => if k = str "users.u001" then some (str "payload") else none)
      (str "users") (str "u001")).2.2.2 (str "payload")
    ⟨str "Alice", str "alice@example.com", some 30, str "2024-01-01"⟩
    (by decide) (by decide)

/-- C8: on a store error during the `GETDEL` round trip the token verifier
fails closed — `verified = false` with every optional field empty — while the
rate limiter on a store error fails open (allows the request). -/
theorem c8_theorem (parseAuth : Str → Option AuthToken) (now : Str)
    (store : Str → Option Str) (token : Str) (limit window : Nat) (s : RLState) :
    ((verify_token parseAuth now store true token).1.verified = false
      ∧ (verify_token parseAuth now store true token).1.user_id = none
      ∧ (verify_token parseAuth now store true token).1.facility = none
      ∧ (verify_token parseAuth now store true token).1.verified_at = none
      ∧ (verify_token parseAuth now store true token).1.data = none)
    ∧ (check_rate_limit limit window true s).1 = true := by
  refine ⟨by simp [verify_token, QrVerifyResult.not_found], ?_⟩
  by_cases h : limit = 0 <;> simp [check_rate_limit, h]

/-- C10: in the generic SELECT path (no earlier rule matched, no reject
pattern fired), table matching is substring containment on the lowercased
text: the first known table contained anywhere in the text — also inside
another word or a quoted value — becomes the target, and with no `where` the
result is a scan of it. -/
theorem c10_theorem (q : Str) (T : List Str) (t : Str)
    (h1 : ((str "set ").isPrefixOf (toLowerL (trimL q))
            || (str "use ").isPrefixOf (toLowerL (trimL q))) = false)
    (h2 : containsSub (str "@@version") (toLowerL (trimL q)) = false)
    (h3 : ¬ toLowerL (trimL q) = str "show tables")
    (h4 : T.find? (fun t2 => toLowerL (trimL q) == str "describe " ++ t2
            || toLowerL (trimL q) == str "desc " ++ t2) = none)
    (h5 : parse_qr_verify (toLowerL (trimL q)) (trimL q) = none)
    (h6 : check_rejected_patterns (toLowerL (trimL q)) = none)
    (h7 : (str "select").isPrefixOf (toLowerL (trimL q)) = true)
    (h8 : T.find? (fun t2 => containsSub t2 (toLowerL (trimL q))) = some t)
    (h9 : containsSub (str "where") (toLowerL (trimL q)) = false) :
    parse_query q T = .SelectScan t := by
  unfold parse_query parseTrimmed
  simp only [h1, h2, h4, h5, h6, h7, if_neg h3, Bool.false_eq_true, if_false, if_true]
  rw [selectLoop_scan_of_find rfl h9 T t h8]

/-- C10, witness: `select 'users'` contains the table name only inside a
quoted value, yet is classified as a full scan of `users`. -/
theorem c10_witness :
    parse_query (str "select 'users'") [str "users"] = .SelectScan (str "users") :=
  c10_theorem _ _ _ (by decide) (by decide) (by decide) (by decide) (by decide)
    (by decide) (by decide) (by decide) (by decide)

/-! ## Case-variance lemmas

Two texts are case variants when their `toLowerL` images agree.  The lemmas
below show each string operation used by the classifier respects that
relation. -/

lemma isWS_lowerChar (c : Nat) : isWS (lowerChar c) = isWS c := by
  unfold isWS lowerChar
  split_ifs with h
  · rw [decide_eq_decide]
    omega
  · rfl

lemma eq_code_iff_of_lower_eq {d a b : Nat} (hd : d < 65) (h : lowerChar a = lowerChar b) :
    a = d ↔ b = d := by
  unfold lowerChar at h
  split_ifs at h <;> omega

lemma beq_code_congr {d : Nat} (hd : d < 65) {a b : Nat} (h : lowerChar a = lowerChar b) :
    (d == a) = (d == b) := by
  have hiff := eq_code_iff_of_lower_eq hd h
  cases h1 : (d == a) <;> cases h2 : (d == b) <;> try rfl
  · exfalso
    rw [beq_iff_eq] at h2
    rw [beq_eq_false_iff_ne] at h1
    exact h1 (hiff.2 h2.symm).symm
  · exfalso
    rw [beq_iff_eq] at h1
    rw [beq_eq_false_iff_ne] at h2
    exact h2 (hiff.1 h1.symm).symm

lemma toLowerL_nil : toLowerL [] = [] := rfl

lemma toLowerL_cons (c : Nat) (t : Str) : toLowerL (c :: t) = lowerChar c :: toLowerL t :=
  rfl

lemma toLowerL_eq_nil {s2 : Str} (h : toLowerL ([] : Str) = toLowerL s2) : s2 = [] := by
  cases s2 with
  | nil => rfl
  | cons c t => exact absurd h (by simp [toLowerL_nil, toLowerL_cons])

lemma eq_nil_of_toLowerL_eq_nil {s : Str} (h : toLowerL s = []) : s = [] := by
  cases s with
  | nil => rfl
  | cons c t => exact absurd h (by simp [toLowerL_cons])

lemma toLowerL_eq_cons {c : Nat} {t s2 : Str} (h : toLowerL (c :: t) = toLowerL s2) :
    ∃ c2 t2, s2 = c2 :: t2 ∧ lowerChar c = lowerChar c2 ∧ toLowerL t = toLowerL t2 := by
  cases s2 with
  | nil => exact absurd h (by simp [toLowerL_cons, toLowerL_nil])
  | cons c2 t2 =>
    rw [toLowerL_cons, toLowerL_cons] at h
    injection h with h1 h2
    exact ⟨c2, t2, rfl, h1, h2⟩

lemma toLowerL_drop (n : Nat) (s : Str) : toLowerL (s.drop n) = (toLowerL s).drop n :=
  List.map_drop _ _ _

lemma toLowerL_take (n : Nat) (s : Str) : toLowerL (s.take n) = (toLowerL s).take n :=
  List.map_take _ _ _

lemma toLowerL_reverse (s : Str) : toLowerL s.reverse = (toLowerL s).reverse :=
  List.map_reverse _ _

lemma toLowerL_dropWhile_ws (s : Str) :
    toLowerL (s.dropWhile isWS) = (toLowerL s).dropWhile isWS := by
  induction s with
  | nil => rfl
  | cons c t ih =>
    rw [List.dropWhile_cons, toLowerL_cons, List.dropWhile_cons, isWS_lowerChar]
    by_cases h : isWS c = true
    · rw [if_pos h, if_pos h, ih]
    · rw [if_neg h, if_neg h, toLowerL_cons]

lemma toLowerL_takeWhile_nws (s : Str) :
    toLowerL (s.takeWhile fun c => ! isWS c)
      = (toLowerL s).takeWhile fun c => ! isWS c := by
  induction s with
  | nil => rfl
  | cons c t ih =>
    rw [List.takeWhile_cons, toLowerL_cons, List.takeWhile_cons, isWS_lowerChar]
    by_cases h : isWS c = true
    · simp only [h, Bool.not_true, Bool.false_eq_true, if_false, toLowerL_nil]
    · simp only [h, Bool.not_false, if_true, toLowerL_cons, ih]

lemma toLowerL_trimStartL (s : Str) : toLowerL (trimStartL s) = trimStartL (toLowerL s) :=
  toLowerL_dropWhile_ws s

lemma toLowerL_trimEndL (s : Str) : toLowerL (trimEndL s) = trimEndL (toLowerL s) := by
  unfold trimEndL
  rw [toLowerL_reverse, toLowerL_dropWhile_ws, toLowerL_reverse]

lemma toLowerL_trimL (s : Str) : toLowerL (trimL s) = trimL (toLowerL s) := by
  unfold trimL
  rw [toLowerL_trimEndL, toLowerL_trimStartL]

lemma isPrefixOf_single_congr {d : Nat} (hd : d < 65) {s s2 : Str}
    (h : toLowerL s = toLowerL s2) : [d].isPrefixOf s = [d].isPrefixOf s2 := by
  cases s with
  | nil =>
    have h2 := toLowerL_eq_nil h
    subst h2
    rfl
  | cons c t =>
    obtain ⟨c2, t2, rfl, hl, ht⟩ := toLowerL_eq_cons h
    simp only [List.isPrefixOf, List.isPrefixOf_nil_left, Bool.and_true]
    exact beq_code_congr hd hl

lemma findSub_single_congr {d : Nat} (hd : d < 65) :
    ∀ {s s2 : Str}, toLowerL s = toLowerL s2 → findSub [d] s = findSub [d] s2 := by
  intro s
  induction s with
  | nil =>
    intro s2 h
    have h2 := toLowerL_eq_nil h
    subst h2
    rfl
  | cons c t ih =>
    intro s2 h
    obtain ⟨c2, t2, rfl, hl, ht⟩ := toLowerL_eq_cons h
    unfold findSub
    rw [isPrefixOf_single_congr hd h, ih ht]

lemma extract_quoted_or_bare_congr {ae ae2 : Str} (h : toLowerL ae = toLowerL ae2) :
    optStrCV (extract_quoted_or_bare ae) (extract_quoted_or_bare ae2) = true := by
  unfold extract_quoted_or_bare
  rw [isPrefixOf_single_congr (show (39 : Nat) < 65 by omega) h,
      isPrefixOf_single_congr (show (34 : Nat) < 65 by omega) h]
  have hd1 : toLowerL (ae.drop 1) = toLowerL (ae2.drop 1) := by
    rw [toLowerL_drop, toLowerL_drop, h]
  by_cases h39 : [39].isPrefixOf ae2 = true
  · rw [if_pos h39, if_pos h39, findSub_single_congr (show (39 : Nat) < 65 by omega) hd1]
    cases findSub [39] (ae2.drop 1) with
    | none => rfl
    | some e =>
      simp only [Option.map_some', optStrCV]
      rw [toLowerL_take, toLowerL_take, hd1]
      simp
  · rw [if_neg h39, if_neg h39]
    by_cases h34 : [34].isPrefixOf ae2 = true
    · rw [if_pos h34, if_pos h34, findSub_single_congr (show (34 : Nat) < 65 by omega) hd1]
      cases findSub [34] (ae2.drop 1) with
      | none => rfl
      | some e =>
        simp only [Option.map_some', optStrCV]
        rw [toLowerL_take, toLowerL_take, hd1]
        simp
    · rw [if_neg h34, if_neg h34]
      have hv : toLowerL (ae.takeWhile fun c => ! isWS c)
          = toLowerL (ae2.takeWhile fun c => ! isWS c) := by
        rw [toLowerL_takeWhile_nws, toLowerL_takeWhile_nws, h]
      by_cases h0 : (ae.takeWhile fun c => ! isWS c) = []
      · have h02 : (ae2.takeWhile fun c => ! isWS c) = [] :=
          eq_nil_of_toLowerL_eq_nil (by rw [← hv, h0]; rfl)
        simp only [h0, h02, if_pos]
        rfl
      · have h02 : ¬ (ae2.takeWhile fun c => ! isWS c) = [] := fun he =>
          h0 (eq_nil_of_toLowerL_eq_nil (by rw [hv, he]; rfl))
        simp only [if_neg h0, if_neg h02, optStrCV, hv]
        simp

lemma extract_eq_value_congr {ap ap2 : Str} (h : toLowerL ap = toLowerL ap2) :
    optStrCV (extract_eq_value ap) (extract_eq_value ap2) = true := by
  unfold extract_eq_value
  rw [isPrefixOf_single_congr (show (61 : Nat) < 65 by omega) h]
  by_cases h61 : [61].isPrefixOf ap2 = true
  · rw [if_pos h61, if_pos h61]
    exact extract_quoted_or_bare_congr (by
      rw [toLowerL_trimStartL, toLowerL_trimStartL, toLowerL_drop, toLowerL_drop, h])
  · rw [if_neg h61, if_neg h61]
    rfl

lemma parse_where_pk_congr {q q2 : Str} (h : toLowerL q = toLowerL q2) (pk : Str) :
    optStrCV (parse_where_pk q pk) (parse_where_pk q2 pk) = true := by
  simp only [parse_where_pk]
  rw [← h]
  cases hwp : findSub (str "where") (toLowerL q) with
  | none => rfl
  | some wp =>
    dsimp only
    have haw : toLowerL (List.drop (wp + 5) q) = toLowerL (List.drop (wp + 5) q2) := by
      rw [toLowerL_drop, toLowerL_drop, h]
    rw [← haw]
    cases hpk : findSub (toLowerL pk) (toLowerL (List.drop (wp + 5) q)) with
    | none => rfl
    | some pkp =>
      dsimp only
      have hinner : toLowerL (List.drop (pkp + List.length pk) (List.drop (wp + 5) q))
          = toLowerL (List.drop (pkp + List.length pk) (List.drop (wp + 5) q2)) := by
        rw [toLowerL_drop (pkp + List.length pk) (List.drop (wp + 5) q),
            toLowerL_drop (pkp + List.length pk) (List.drop (wp + 5) q2), haw]
      exact extract_eq_value_congr (by
        rw [toLowerL_trimStartL, toLowerL_trimStartL, hinner])

lemma intentMatch_refl (x : QueryType) : intentMatch x x = true := by
  cases x <;> simp [intentMatch]

lemma selectLoop_congr {qt qt2 : Str} (h : toLowerL qt = toLowerL qt2) (ql : Str) :
    ∀ T : List Str, optIntentMatch (selectLoop ql qt T) (selectLoop ql qt2 T) = true := by
  intro T
  induction T with
  | nil => rfl
  | cons t0 rest ih =>
    simp only [selectLoop]
    by_cases hc : containsSub t0 ql = true
    · rw [if_pos hc, if_pos hc]
      have hpk := parse_where_pk_congr h (str "id")
      cases h1 : parse_where_pk qt (str "id") with
      | some v =>
        cases h2 : parse_where_pk qt2 (str "id") with
        | some v2 =>
          rw [h1, h2] at hpk
          simp only [optStrCV] at hpk
          dsimp only
          simp only [optIntentMatch, intentMatch, hpk, Bool.and_true, beq_self_eq_true]
        | none => rw [h1, h2] at hpk; simp [optStrCV] at hpk
      | none =>
        cases h2 : parse_where_pk qt2 (str "id") with
        | some v2 => rw [h1, h2] at hpk; simp [optStrCV] at hpk
        | none =>
          dsimp only
          by_cases hw : containsSub (str "where") ql = true
          · simp only [hw, Bool.not_true, Bool.false_eq_true, if_false]
            exact ih
          · have hw2 : containsSub (str "where") ql = false := by
              simpa using hw
            simp only [hw2, Bool.not_false, if_true, optIntentMatch]
            exact intentMatch_refl _
    · rw [if_neg hc, if_neg hc]
      exact ih

lemma parseTrimmed_congr {qt qt2 : Str} (T : List Str) (h : toLowerL qt = toLowerL qt2)
    (hq : containsSub (str "qr_verify") (toLowerL qt) = false) :
    intentMatch (parseTrimmed qt T) (parseTrimmed qt2 T) = true := by
  simp only [parseTrimmed]
  rw [← h]
  by_cases h1 : ((str "set ").isPrefixOf (toLowerL qt)
      || (str "use ").isPrefixOf (toLowerL qt)) = true
  · rw [if_pos h1, if_pos h1]
    exact intentMatch_refl _
  · rw [if_neg h1, if_neg h1]
    by_cases h2 : containsSub (str "@@version") (toLowerL qt) = true
    · rw [if_pos h2, if_pos h2]
      exact intentMatch_refl _
    · rw [if_neg h2, if_neg h2]
      by_cases h3 : toLowerL qt = str "show tables"
      · rw [if_pos h3, if_pos h3]
        exact intentMatch_refl _
      · rw [if_neg h3, if_neg h3]
        cases hfind : List.find? (fun t => toLowerL qt == str "describe " ++ t
            || toLowerL qt == str "desc " ++ t) T with
        | some t =>
          dsimp only
          exact intentMatch_refl _
        | none =>
          dsimp only
          have hqr1 : parse_qr_verify (toLowerL qt) qt = none := by
            simp [parse_qr_verify, hq]
          have hqr2 : parse_qr_verify (toLowerL qt) qt2 = none := by
            simp [parse_qr_verify, hq]
          rw [hqr1, hqr2]
          dsimp only
          cases hrej : check_rejected_patterns (toLowerL qt) with
          | some r =>
            dsimp only
            exact intentMatch_refl _
          | none =>
            dsimp only
            by_cases h7 : (str "select").isPrefixOf (toLowerL qt) = true
            · rw [if_pos h7, if_pos h7]
              have hsl := selectLoop_congr h (toLowerL qt) T
              cases hA : selectLoop (toLowerL qt) qt T with
              | none =>
                cases hB : selectLoop (toLowerL qt) qt2 T with
                | none =>
                  dsimp only
                  exact intentMatch_refl _
                | some y => rw [hA, hB] at hsl; simp [optIntentMatch] at hsl
              | some x =>
                cases hB : selectLoop (toLowerL qt) qt2 T with
                | none => rw [hA, hB] at hsl; simp [optIntentMatch] at hsl
                | some y =>
                  rw [hA, hB] at hsl
                  dsimp only
                  simpa [optIntentMatch] using hsl
            · rw [if_neg h7, if_neg h7]
              exact intentMatch_refl _

lemma dropWhile_ws_append :
    ∀ {a : Str}, (∀ c ∈ a, isWS c = true) → ∀ b : Str,
      (a ++ b).dropWhile isWS = b.dropWhile isWS := by
  intro a
  induction a with
  | nil => intro _ b; rfl
  | cons c t ih =>
    intro ha b
    rw [List.cons_append, List.dropWhile_cons, if_pos (ha c (List.mem_cons_self c t))]
    exact ih (fun x hx => ha x (List.mem_cons_of_mem _ hx)) b

lemma dropWhile_append_of_ne_nil :
    ∀ {a : Str}, a.dropWhile isWS ≠ [] → ∀ b : Str,
      (a ++ b).dropWhile isWS = a.dropWhile isWS ++ b := by
  intro a
  induction a with
  | nil => intro h _; exact absurd rfl h
  | cons c t ih =>
    intro h b
    rw [List.cons_append, List.dropWhile_cons]
    by_cases hc : isWS c = true
    · rw [if_pos hc]
      rw [List.dropWhile_cons, if_pos hc] at h
      rw [List.dropWhile_cons, if_pos hc]
      exact ih h b
    · rw [if_neg hc, List.dropWhile_cons, if_neg hc]
      rfl

lemma trimEndL_ws_append {b : Str} (hb : ∀ c ∈ b, isWS c = true) (x : Str) :
    trimEndL (x ++ b) = trimEndL x := by
  unfold trimEndL
  rw [List.reverse_append, dropWhile_ws_append (fun c hc => hb c (List.mem_reverse.mp hc))]

lemma trimL_ws_append {a b : Str} (ha : ∀ c ∈ a, isWS c = true)
    (hb : ∀ c ∈ b, isWS c = true) (q : Str) :
    trimL (a ++ q ++ b) = trimL q := by
  unfold trimL trimStartL
  rw [List.append_assoc, dropWhile_ws_append ha]
  by_cases h0 : q.dropWhile isWS = []
  · have hq : ∀ c ∈ q, isWS c = true := List.dropWhile_eq_nil_iff.mp h0
    rw [h0, dropWhile_ws_append hq, List.dropWhile_eq_nil_iff.mpr hb]
  · rw [dropWhile_append_of_ne_nil h0, trimEndL_ws_append hb]

/-- C6, counterexample: classification is not invariant under letter case.
The `qr_verify` extraction searches `qr_verify(` in the original-case text, so
the uppercase spelling of a token-verification query falls through to
`Rejected "unknown_query"` while the lowercase spelling yields the `QrVerify`
intent — different intents, not merely a differently-cased extracted
argument. -/
theorem c6_counterexample :
    toLowerL (str "SELECT QR_VERIFY('x')") = toLowerL (str "select qr_verify('x')")
    ∧ parse_query (str "select qr_verify('x')") [str "users"] = .QrVerify (str "x")
    ∧ parse_query (str "SELECT QR_VERIFY('x')") [str "users"]
        = .Rejected "unknown_query"
    ∧ intentMatch (parse_query (str "select qr_verify('x')") [str "users"])
        (parse_query (str "SELECT QR_VERIFY('x')") [str "users"]) = false := by
  exact ⟨by decide, by decide, by decide, by decide⟩

/-- C6, amended: classification is invariant under surrounding whitespace for
every query, and invariant under letter case — up to the verbatim extracted
argument — for every query whose lowercased text does not contain
`qr_verify` (the `qr_verify` extraction alone matches the call case
sensitively in the original text). -/
theorem c6_theorem :
    (∀ (q q2 : Str) (T : List Str), toLowerL q = toLowerL q2 →
      containsSub (str "qr_verify") (toLowerL (trimL q)) = false →
      intentMatch (parse_query q T) (parse_query q2 T) = true)
    ∧ (∀ (a q b : Str) (T : List Str),
      (∀ c ∈ a, isWS c = true) → (∀ c ∈ b, isWS c = true) →
      parse_query (a ++ q ++ b) T = parse_query q T) := by
  constructor
  · intro q q2 T h hq
    unfold parse_query
    exact parseTrimmed_congr T (by rw [toLowerL_trimL, toLowerL_trimL, h]) hq
  · intro a q b T ha hb
    unfold parse_query
    rw [trimL_ws_append ha hb]

/-- C6, witness: a differently-cased point lookup classifies the same up to
the extracted value, and surrounding whitespace does not change a
classification. -/
theorem c6_witness :
    intentMatch
      (parse_query (str "SELECT * FROM users WHERE id = 'A1'") [str "users"])
      (parse_query (str "select * from USERS where ID = 'a1'") [str "users"]) = true
    ∧ parse_query (str "  show tables  ") [str "users"]
        = parse_query (str "show tables") [str "users"] :=
  ⟨c6_theorem.1 _ _ _ (by decide) (by decide),
   c6_theorem.2 (str "  ") (str "show tables") (str "  ") [str "users"]
     (by decide) (by decide)⟩

/-- C9: the WHERE primary-key extraction is exactly the loose substring
matcher the claim describes — the searched field is the literal `id` (which is
also what `parse_query` passes, independently of any declared primary-key
field), located at its first case-insensitive occurrence anywhere after the
first `where`, even inside a longer identifier: `WHERE userid = 'x'` extracts
`x`. -/
theorem c9_theorem :
    (∀ query : Str, parse_where_pk query (str "id") = where_pk_claimed query)
    ∧ parse_query (str "SELECT * FROM users WHERE userid = 'x'") [str "users"]
        = .SelectByPk (str "users") (str "x") := by
  constructor
  · intro query
    have h1 : toLowerL (str "id") = str "id" := by decide
    have h2 : (str "id").length = 2 := by decide
    simp only [parse_where_pk, where_pk_claimed, h1, h2]
  · decide
